import Mathlib

/-
Verification of the nion-style normalized cache reducers:
  - entity store reducer       (src/unnamed/part_000, `entitiesReducer`)
  - reference store reducer    (src/unnamed/part_001, `refsReducer`,
                                `deleteRefFromEntities`)
  - request status reducer and ref normalizer
                               (src/src/libs/nion/reducers/requests.js,
                                `requestsReducer`, `makeRef`)

JavaScript objects are modelled as insertion-ordered association lists
(`Obj V`), matching JS object key ordering, spread-with-override and
`delete` semantics.  Places where the JS code would throw a `TypeError`
(property access on `undefined`) are modelled as `Except.error`.
-/

namespace Nion

/-- JSON-like scalar values stored in entity attributes and relationships.
The reducers never inspect these values, so two representative shapes
(strings and integers) suffice. -/
inductive JVal where
  | str (s : String)
  | num (n : Int)
  deriving DecidableEq, Repr

/-- A JavaScript object modelled as an insertion-ordered association list. -/
abbrev Obj (V : Type) := List (String × V)

/-- Property lookup `m[k]` (JS objects have unique keys, first binding wins). -/
def lookupKey {V : Type} : Obj V → String → Option V
  | [], _ => none
  | (k', v) :: rest, k => if k' = k then some v else lookupKey rest k

/-- JS spread-with-override `{...m, [k]: v}`: replaces the binding in place
when the key exists (JS keeps the original insertion position of an
overridden key), appends otherwise. -/
def setKey {V : Type} : Obj V → String → V → Obj V
  | [], k, v => [(k, v)]
  | (k', v') :: rest, k, v =>
    if k' = k then (k, v) :: rest else (k', v') :: setKey rest k v

/-- JS `delete m[k]`: removes the binding, preserving the order of the rest. -/
def removeKey {V : Type} (m : Obj V) (k : String) : Obj V :=
  m.filter (fun p => p.1 != k)

/-- JS object spread `{...old, ...upd}`: keys of `upd` override those of
`old` field by field; keys absent from `upd` survive from `old`. -/
def mergeObj (old upd : Obj JVal) : Obj JVal :=
  upd.foldl (fun acc p => setKey acc p.1 p.2) old

/-- JS truthiness of an optional string: `undefined` and `""` are falsy. -/
def jsTruthyStr : Option String → Bool
  | none => false
  | some s => s != ""

/-! ### Data model -/

/-- A normalized entity record as built at src/unnamed/part_000 lines 32-45:
`{ type, id, attributes, relationships }`. -/
structure Entity where
  type : String
  id : String
  attributes : Obj JVal
  relationships : Obj JVal
  deriving DecidableEq, Repr

/-- The entity store: type -> id -> entity. -/
abbrev EntityStore := Obj (Obj Entity)

/-- One entity's slice of an action's `storeFragment`; the reducer reads
`attributes`/`relationships` via lodash `get` with default `{}`, so an
absent field is modelled as `[]`. -/
structure EntityFragment where
  attributes : Obj JVal
  relationships : Obj JVal
  deriving DecidableEq, Repr

/-- The shape of `payload.storeFragment`: type -> id -> entity fragment. -/
abbrev StoreFragment := Obj (Obj EntityFragment)

/-- A `(type, id)` pointer stored in a reference's entities list. -/
structure EntityRef where
  type : String
  id : String
  deriving DecidableEq, Repr

/-- The shape of `meta.refToDelete`: either field may be absent (undefined). -/
structure RefToDelete where
  type : Option String
  id : Option String
  deriving DecidableEq, Repr

/-- The `entities` field of a stored reference: either an array of
`(type,id)` pointers, or any non-array value (undefined, an object, ...),
which `deleteRefFromEntities` leaves untouched (`Array.isArray` guard). -/
inductive EntitiesField where
  | list (es : List EntityRef)
  | other (v : String)
  deriving DecidableEq, Repr

/-- A reference stored under a data key:
`{ entities, isCollection, links, meta }`; `links` and `meta` are opaque
passthrough values. -/
structure Ref where
  entities : EntitiesField
  isCollection : Option Bool
  links : Option String
  meta : Option String
  deriving DecidableEq, Repr

/-- The reference store: data key -> reference. -/
abbrev RefsStore := Obj Ref

/-- Metadata of a `JSON_API_SUCCESS` / `JSON_API_BOOTSTRAP` action. -/
structure SuccessMeta where
  dataKey : String
  isNextPage : Bool
  refToDelete : Option RefToDelete
  deriving DecidableEq, Repr

/-- Payload of a `JSON_API_SUCCESS` / `JSON_API_BOOTSTRAP` action. -/
structure SuccessPayload where
  storeFragment : StoreFragment
  newRequestRef : Ref
  deriving DecidableEq, Repr

/-- The actions dispatched to the three reducers. -/
inductive Action where
  | jsonApiRequest (dataKey method : String)
  | jsonApiSuccess (meta : SuccessMeta) (payload : SuccessPayload)
  | jsonApiBootstrap (meta : SuccessMeta) (payload : SuccessPayload)
  | jsonApiFailure (dataKey name message : String)
  | updateEntity (type id : String) (attributes : Obj JVal)
  | genericBootstrap (dataKey : String) (payload : Ref)
  | initializeDataKey (dataKey : String) (ref : Ref)
  deriving DecidableEq, Repr

/-! ### Entity store reducer (src/unnamed/part_000) -/

/-- Two-level lookup `state[t][i]` on the entity store. -/
def lookup2 (st : EntityStore) (t i : String) : Option Entity :=
  match lookupKey st t with
  | some m => lookupKey m i
  | none => none

/-- One inner-loop step of the `JSON_API_SUCCESS`/`JSON_API_BOOTSTRAP` case:
`newState[type][id] = { type, id, attributes: {...old, ...new},
relationships: {...old, ...new} }` (part_000 lines 32-45). -/
def applyEntityUpdate (st : EntityStore) (t i : String) (ef : EntityFragment) : EntityStore :=
  let tmap := (lookupKey st t).getD []
  let old := lookupKey tmap i
  let oldA := (old.map Entity.attributes).getD []
  let oldR := (old.map Entity.relationships).getD []
  setKey st t (setKey tmap i ⟨t, i, mergeObj oldA ef.attributes, mergeObj oldR ef.relationships⟩)

/-- The inner `map(entities, (entity, id) => ...)` loop over one type's
fragment (part_000 lines 31-46). -/
def applyEnts (st : EntityStore) (t : String) (ents : Obj EntityFragment) : EntityStore :=
  ents.foldl (fun st2 p => applyEntityUpdate st2 t p.1 p.2) st

/-- Step `newState[type] = { ...get(newState, type, {}) }` (part_000 lines 27-29):
ensures the type's map exists before the inner loop runs. -/
def ensureType (st : EntityStore) (t : String) : EntityStore :=
  setKey st t ((lookupKey st t).getD [])

/-- Processing of one `(type, entities)` pair of the store fragment. -/
def applyTypeFragment (st : EntityStore) (t : String) (ents : Obj EntityFragment) : EntityStore :=
  applyEnts (ensureType st t) t ents

/-- The outer `map(storeFragment, (entities, type) => ...)` loop
(part_000 lines 24-47). -/
def applyFragment (st : EntityStore) (frag : StoreFragment) : EntityStore :=
  frag.foldl (fun st2 p => applyTypeFragment st2 p.1 p.2) st

/-- The guard of the entity-store delete (part_000 line 50):
`entityToDelete && entityToDelete.id !== undefined && entityToDelete.type`
(note: `id` only has to be present, while `type` has to be truthy). -/
def deleteTriggers : Option RefToDelete → Bool
  | none => false
  | some rtd => rtd.id.isSome && jsTruthyStr rtd.type

/-- The entity store reducer (src/unnamed/part_000 lines 15-79).
`JSON_API_SUCCESS`/`JSON_API_BOOTSTRAP` merge the store fragment and then
apply the optional `refToDelete`; `UPDATE_ENTITY` merges a partial
attributes object over an existing record.  JS `TypeError` throw sites
(property access on `undefined`) become `Except.error`. -/
def entitiesReducer (state : EntityStore) (action : Action) : Except String EntityStore :=
  match action with
  | .jsonApiSuccess meta payload | .jsonApiBootstrap meta payload =>
    let newState := applyFragment state payload.storeFragment
    match meta.refToDelete with
    | some rtd =>
      match rtd.id, rtd.type with
      | some i, some t =>
        if t != "" then
          match lookupKey newState t with
          | none => .error "TypeError: cannot convert undefined to object"
          | some tmap => .ok (setKey newState t (removeKey tmap i))
        else .ok newState
      | _, _ => .ok newState
    | none => .ok newState
  | .updateEntity t i attrs =>
    match lookupKey state t with
    | none => .error "TypeError: cannot read properties of undefined"
    | some tmap =>
      match lookupKey tmap i with
      | none => .error "TypeError: cannot read attributes of undefined"
      | some e =>
        .ok (setKey state t (setKey tmap i { e with attributes := mergeObj e.attributes attrs }))
  | _ => .ok state

/-! ### Reference store reducer (src/unnamed/part_001) -/

/-- The per-reference body of `deleteRefFromEntities` (part_001 lines
27-36): filter the deleted pair out of an array-valued `entities`, leave a
non-array `entities` untouched (`Array.isArray` guard). -/
def deleteRefFromRef (t i : String) (r : Ref) : Ref :=
  match r.entities with
  | .list es =>
    { r with entities := .list (es.filter (fun e => !(e.type == t && e.id == i))) }
  | .other _ => r

/-- Function `deleteRefFromEntities` (part_001 lines 16-39): if the `(type,id)` is
incomplete (`!id || !type`) return the state unchanged; otherwise rebuild
every data key's reference via `deleteRefFromRef`. -/
def deleteRefFromEntities (refToDelete : RefToDelete) (state : RefsStore) : RefsStore :=
  match refToDelete.id, refToDelete.type with
  | some i, some t =>
    if i != "" && t != "" then
      state.map (fun p => (p.1, deleteRefFromRef t i p.2))
    else state
  | _, _ => state

/-- Cloning `JSON.parse(JSON.stringify(x))` (part_001 line 14): a deep copy, which
for the JSON-representable values modelled here is structurally equal to
its input. -/
def clone (r : Ref) : Ref := r

/-- The reference store reducer (src/unnamed/part_001 lines 41-92).
Precedence on success/bootstrap: `isNextPage` append first, then
`refToDelete`, then the default wholesale replace.  The next-page branch
reads `state[dataKey].entities.concat(...)`, which throws when no
reference exists for the data key (or its entities are not an array). -/
def refsReducer (state : RefsStore) (action : Action) : Except String RefsStore :=
  match action with
  | .jsonApiRequest _ _ => .ok state
  | .jsonApiBootstrap meta payload | .jsonApiSuccess meta payload =>
    if meta.isNextPage then
      match lookupKey state meta.dataKey with
      | none => .error "TypeError: cannot read entities of undefined"
      | some oldRef =>
        match oldRef.entities, payload.newRequestRef.entities with
        | .list oldEs, .list newEs =>
          .ok (setKey state meta.dataKey
            { payload.newRequestRef with entities := .list (oldEs ++ newEs) })
        | _, _ => .error "TypeError: entities concat is not applicable"
    else
      match meta.refToDelete with
      | some rtd => .ok (deleteRefFromEntities rtd state)
      | none => .ok (setKey state meta.dataKey payload.newRequestRef)
  | .genericBootstrap dataKey payload => .ok (setKey state dataKey (clone payload))
  | .initializeDataKey dataKey r => .ok (setKey state dataKey (clone r))
  | _ => .ok state

/-! ### Request status reducer (src/src/libs/nion/reducers/requests.js) -/

/-- A per-key request status record; absent fields are `none`. -/
structure RequestRecord where
  status : Option String
  isLoading : Option Bool
  isLoaded : Option Bool
  isError : Option Bool
  pending : Option String
  fetchedAt : Option Nat
  name : Option String
  errors : Option (List String)
  deriving DecidableEq, Repr

/-- The request status store: data key -> record. -/
abbrev RequestsStore := Obj RequestRecord

/-- The record with every field absent (spreading `undefined` contributes
no fields). -/
def RequestRecord.empty : RequestRecord := ⟨none, none, none, none, none, none, none, none⟩

/-- A request status record has fields status / isLoading / isLoaded /
isError / pending / fetchedAt / name / errors only; it has no field named
`meta`, so reading `.meta` off one yields undefined and the lodash path
lookup dies at this step. -/
def fieldMeta (_r : RequestRecord) : Option RequestRecord := none

/-- Lookup `get(state, 'action.meta.dataKey')` (requests.js line 12): a literal
field-path lookup on the state object — `state["action"]`, then `.meta`,
then `.dataKey` — not a lookup of the acting data key's record. -/
def existingRecord (state : RequestsStore) : Option RequestRecord :=
  match lookupKey state "action" with
  | some r => fieldMeta r
  | none => none

/-- The record the spread `{...existing, ...}` effectively starts from:
spreading `undefined` contributes no fields, so the `getD` falls back to
the all-absent record. -/
def existingOf (state : RequestsStore) : RequestRecord :=
  (existingRecord state).getD RequestRecord.empty

/-- The request status reducer (requests.js lines 11-55).  `Date.now()` is
modelled by the explicit `now` parameter; `existing` is computed once
before the switch, as in the source. -/
def requestsReducer (now : Nat) (state : RequestsStore) (action : Action) : RequestsStore :=
  let existing := existingOf state
  match action with
  | .jsonApiRequest dataKey method =>
    setKey state dataKey
      { existing with status := some "pending", isLoading := some true, pending := some method }
  | .jsonApiSuccess meta _ =>
    setKey state meta.dataKey
      { existing with status := some "success", fetchedAt := some now, isError := some false,
                      isLoaded := some true, isLoading := some false }
  | .jsonApiFailure dataKey nm msg =>
    setKey state dataKey
      { existing with status := some "error", name := some nm, errors := some [msg],
                      fetchedAt := some now, isError := some true, isLoaded := some false,
                      isLoading := some false, pending := none }
  | _ => state

/-! ### Ref normalizer `makeRef` (requests.js lines 60-98) -/

/-- The `data` field of a ref-normalizer input: a JSON:API relationship
linkage, either an array of resource identifiers or a single one. -/
inductive DataField where
  | arr (xs : List EntityRef)
  | obj (e : EntityRef)
  deriving DecidableEq, Repr

/-- The fields `makeRef` reads off the object it processes; `none` models
an absent (or null/undefined, hence falsy) field. -/
structure PlainInput where
  isCollection : Option Bool
  entities : Option (List EntityRef)
  links : Option String
  meta : Option String
  data : Option DataField
  type : Option String
  id : Option String
  attributes : Option (Obj JVal)
  deriving DecidableEq, Repr

/-- A `makeRef` input: `backingRef` models the hidden `_ref` marker a
previously-projected resource view carries. -/
structure RefInput where
  backingRef : Option PlainInput
  plain : PlainInput
  deriving DecidableEq, Repr

/-- The options object of `makeRef`. -/
structure MakeRefOptions where
  isCollection : Option Bool
  deriving DecidableEq, Repr

/-- The canonical reference shape `makeRef` returns; either field of the
underlying computation may end up undefined. -/
structure MakeRefResult where
  entities : Option (List EntityRef)
  isCollection : Option Bool
  links : Option String
  meta : Option String
  deriving DecidableEq, Repr

/-- Function `makeRef` (requests.js lines 60-98).  Note that in the source the
flat-resource test (line 83) is a second independent `if`, not an
`else if`, so it runs even when the `data` branch already ran; and the
`options.isCollection` override (line 88) only fires when the option is
truthy. -/
def makeRef (input : RefInput) (options : MakeRefOptions) : MakeRefResult :=
  let toProcess : PlainInput :=
    match input.backingRef with
    | some r => r
    | none => input.plain
  let step1 : Option (List EntityRef) × Option Bool :=
    match toProcess.data with
    | some (.arr xs) => (some (xs.map fun e => ⟨e.type, e.id⟩), some true)
    | some (.obj e) => (some [⟨e.type, e.id⟩], some false)
    | none => (toProcess.entities, toProcess.isCollection)
  let step2 : Option (List EntityRef) × Option Bool :=
    if jsTruthyStr toProcess.type && jsTruthyStr toProcess.id && toProcess.attributes.isSome then
      (some [⟨toProcess.type.getD "", toProcess.id.getD ""⟩], some false)
    else step1
  let isColl : Option Bool :=
    if options.isCollection = some true then some true else step2.2
  ⟨step2.1, isColl, toProcess.links, toProcess.meta⟩

/-! ### Derived definitions used in theorem statements -/

/-- Value `firstSome a b` is `a` when `a` is `some`, else `b` (JS `??`-style
fallthrough used to phrase lookup results of merged objects). -/
def firstSome {V : Type} : Option V → Option V → Option V
  | some v, _ => some v
  | none, b => b

/-- The attributes the reducer reads off the existing record at `(t,i)`
(`get(newState[type][id], 'attributes', {})`). -/
def oldAttrs (st : EntityStore) (t i : String) : Obj JVal :=
  ((lookup2 st t i).map Entity.attributes).getD []

/-- The relationships the reducer reads off the existing record at `(t,i)`. -/
def oldRels (st : EntityStore) (t i : String) : Obj JVal :=
  ((lookup2 st t i).map Entity.relationships).getD []

/-- The entities list `makeRef` builds from a `data` field (step 2 of the
normalizer): array elements map to their `(type,id)`; a single linkage
yields a one-element list. -/
def dataEntities : DataField → List EntityRef
  | .arr xs => xs.map fun e => ⟨e.type, e.id⟩
  | .obj e => [⟨e.type, e.id⟩]

/-- The `isCollection` value `makeRef` infers from a `data` field. -/
def dataIsCollection : DataField → Bool
  | .arr _ => true
  | .obj _ => false

/-- Request-status states reachable from the initial state `{}` by any
sequence of dispatched actions. -/
inductive ReachableReq : RequestsStore → Prop where
  | init : ReachableReq []
  | step (s : RequestsStore) (now : Nat) (a : Action) :
      ReachableReq s → ReachableReq (requestsReducer now s a)

/-! ### Concrete instances used by counterexamples and witnesses -/

/-- A store fragment mentioning `(article, 1)` with attributes `{title: "A"}`. -/
def fragTitle : StoreFragment := [("article", [("1", ⟨[("title", .str "A")], []⟩)])]

/-- A store fragment mentioning `(article, 1)` with attributes `{views: 10}`. -/
def fragViews : StoreFragment := [("article", [("1", ⟨[("views", .num 10)], []⟩)])]

/-- An empty normalized reference used as a generic `newRequestRef`. -/
def emptyRef : Ref := ⟨.list [], none, none, none⟩

/-- Success metadata carrying a complete `refToDelete` for `(article, 1)`. -/
def delArticleMeta : SuccessMeta := ⟨"k", false, some ⟨some "article", some "1"⟩⟩

/-- Plain success metadata for data key `"k"` (no next-page, no delete). -/
def plainMeta : SuccessMeta := ⟨"k", false, none⟩

/-- The entity store holding exactly `(article, 1)` with `{title: "A"}`,
as produced by applying `fragTitle` to the empty store. -/
def articleStore : EntityStore :=
  [("article", [("1", ⟨"article", "1", [("title", .str "A")], []⟩)])]

/-- A `makeRef` input carrying both a `data` linkage (to `(post,1)`) and a
flat resource shape (`type: "user", id: "9", attributes: {}`). -/
def dataAndFlatInput : RefInput :=
  ⟨none, ⟨none, none, none, none, some (.arr [⟨"post", "1"⟩]), some "user", some "9", some []⟩⟩

/-- A `makeRef` input whose `data` linkage is an array, so step 2 infers
`isCollection = true`. -/
def arrayDataInput : RefInput :=
  ⟨none, ⟨none, none, none, none, some (.arr [⟨"post", "1"⟩]), none, none, none⟩⟩

/-- A reference store holding one collection reference under `"k"`. -/
def feedState : RefsStore := [("k", ⟨.list [⟨"post", "1"⟩], some true, none, none⟩)]

/-! ### Association list lemmas -/

theorem lookupKey_setKey_self {V : Type} (m : Obj V) (k : String) (v : V) :
    lookupKey (setKey m k v) k = some v := by
  induction m with
  | nil => simp [setKey, lookupKey]
  | cons p rest ih =>
    obtain ⟨k', v'⟩ := p
    by_cases h : k' = k
    · subst h; simp [setKey, lookupKey]
    · simp [setKey, lookupKey, h, ih]

theorem lookupKey_setKey_ne {V : Type} (m : Obj V) (k : String) (v : V) (k' : String)
    (h : k' ≠ k) : lookupKey (setKey m k v) k' = lookupKey m k' := by
  induction m with
  | nil => simp [setKey, lookupKey, Ne.symm h]
  | cons p rest ih =>
    obtain ⟨k₀, v₀⟩ := p
    by_cases h0 : k₀ = k
    · subst h0
      have : k₀ ≠ k' := fun hh => h (hh ▸ rfl)
      simp [setKey, lookupKey, this]
    · by_cases h1 : k₀ = k'
      · subst h1; simp [setKey, lookupKey, h0]
      · simp [setKey, lookupKey, h0, h1, ih]

theorem lookupKey_map {V W : Type} (f : V → W) (m : Obj V) (k : String) :
    lookupKey (m.map (fun p => (p.1, f p.2))) k = (lookupKey m k).map f := by
  induction m with
  | nil => simp [lookupKey]
  | cons p rest ih =>
    by_cases h : p.1 = k
    · simp [lookupKey, h]
    · simp [lookupKey, h, ih]

theorem lookupKey_append {V : Type} (l₁ l₂ : Obj V) (k : String) :
    lookupKey (l₁ ++ l₂) k = firstSome (lookupKey l₁ k) (lookupKey l₂ k) := by
  induction l₁ with
  | nil => simp [lookupKey, firstSome]
  | cons p rest ih =>
    by_cases h : p.1 = k
    · simp [lookupKey, h, firstSome]
    · simp [lookupKey, h, ih]

/-- Field-level characterization of the JS spread `{...old, ...upd}`:
the last occurrence of a key in `upd` wins, and keys absent from `upd`
keep their value from `old` (never discarded). -/
theorem lookupKey_mergeObj (old upd : Obj JVal) (f : String) :
    lookupKey (mergeObj old upd) f = firstSome (lookupKey upd.reverse f) (lookupKey old f) := by
  induction upd generalizing old with
  | nil => simp [mergeObj, lookupKey, firstSome]
  | cons p rest ih =>
    have step : mergeObj old (p :: rest) = mergeObj (setKey old p.1 p.2) rest := by
      simp [mergeObj]
    rw [step, ih]
    rw [List.reverse_cons, lookupKey_append]
    cases hr : lookupKey rest.reverse f with
    | some v => simp [firstSome]
    | none =>
      by_cases h : p.1 = f
      · subst h
        simp [firstSome, lookupKey, lookupKey_setKey_self]
      · have h' : f ≠ p.1 := fun hh => h hh.symm
        simp [firstSome, lookupKey, h, lookupKey_setKey_ne _ _ _ _ h']

/-! ### Entity store fold lemmas -/

theorem lookup2_applyEntityUpdate_self (st : EntityStore) (t i : String) (ef : EntityFragment) :
    lookup2 (applyEntityUpdate st t i ef) t i =
      some ⟨t, i, mergeObj (oldAttrs st t i) ef.attributes, mergeObj (oldRels st t i) ef.relationships⟩ := by
  unfold applyEntityUpdate oldAttrs oldRels lookup2
  cases h : lookupKey st t with
  | none => simp [h, lookupKey_setKey_self, lookupKey]
  | some m => simp [h, lookupKey_setKey_self]

theorem lookup2_applyEntityUpdate_ne (st : EntityStore) (t i : String) (ef : EntityFragment)
    (t' i' : String) (h : t' ≠ t ∨ i' ≠ i) :
    lookup2 (applyEntityUpdate st t i ef) t' i' = lookup2 st t' i' := by
  unfold applyEntityUpdate lookup2
  by_cases ht : t' = t
  · subst ht
    have hi : i' ≠ i := h.resolve_left (fun hh => hh rfl)
    cases hm : lookupKey st t' with
    | none => simp [hm, lookupKey_setKey_self, lookupKey_setKey_ne _ _ _ _ hi, lookupKey, Ne.symm hi]
    | some m => simp [hm, lookupKey_setKey_self, lookupKey_setKey_ne _ _ _ _ hi]
  · simp [lookupKey_setKey_ne _ _ _ _ ht]

theorem lookup2_ensureType (st : EntityStore) (t t' i' : String) :
    lookup2 (ensureType st t) t' i' = lookup2 st t' i' := by
  unfold ensureType lookup2
  by_cases ht : t' = t
  · subst ht
    cases hm : lookupKey st t' with
    | none => simp [hm, lookupKey_setKey_self, lookupKey]
    | some m => simp [hm, lookupKey_setKey_self]
  · simp [lookupKey_setKey_ne _ _ _ _ ht]

theorem lookup2_applyEnts_other (st : EntityStore) (t : String) (ents : Obj EntityFragment)
    (t' i' : String) (h : t' ≠ t) :
    lookup2 (applyEnts st t ents) t' i' = lookup2 st t' i' := by
  induction ents generalizing st with
  | nil => rfl
  | cons p rest ih =>
    show lookup2 (applyEnts (applyEntityUpdate st t p.1 p.2) t rest) t' i' = _
    rw [ih, lookup2_applyEntityUpdate_ne _ _ _ _ _ _ (Or.inl h)]

theorem lookup2_applyEnts_absent (st : EntityStore) (t : String) (ents : Obj EntityFragment)
    (i : String) (h : i ∉ ents.map Prod.fst) :
    lookup2 (applyEnts st t ents) t i = lookup2 st t i := by
  induction ents generalizing st with
  | nil => rfl
  | cons p rest ih =>
    have hne : i ≠ p.1 := by
      intro hh; exact h (by simp [hh])
    have hrest : i ∉ rest.map Prod.fst := by
      intro hh; exact h (by simp [hh])
    show lookup2 (applyEnts (applyEntityUpdate st t p.1 p.2) t rest) t i = _
    rw [ih _ hrest, lookup2_applyEntityUpdate_ne _ _ _ _ _ _ (Or.inr hne)]

theorem lookup2_applyEnts_mem (st : EntityStore) (t : String) (ents : Obj EntityFragment)
    (i : String) (ef : EntityFragment) (hnd : (ents.map Prod.fst).Nodup) (hmem : (i, ef) ∈ ents) :
    lookup2 (applyEnts st t ents) t i =
      some ⟨t, i, mergeObj (oldAttrs st t i) ef.attributes, mergeObj (oldRels st t i) ef.relationships⟩ := by
  induction ents generalizing st with
  | nil => cases hmem
  | cons p rest ih =>
    have hnd' : (rest.map Prod.fst).Nodup := (List.nodup_cons.mp hnd).2
    rcases List.mem_cons.mp hmem with heq | hmemrest
    · subst heq
      have habs : i ∉ rest.map Prod.fst := (List.nodup_cons.mp hnd).1
      show lookup2 (applyEnts (applyEntityUpdate st t i ef) t rest) t i = _
      rw [lookup2_applyEnts_absent _ _ _ _ habs, lookup2_applyEntityUpdate_self]
    · have hi : i ∈ rest.map Prod.fst := List.mem_map.mpr ⟨(i, ef), hmemrest, rfl⟩
      have hne : i ≠ p.1 := by
        intro hh
        exact (List.nodup_cons.mp hnd).1 (hh ▸ hi)
      show lookup2 (applyEnts (applyEntityUpdate st t p.1 p.2) t rest) t i = _
      rw [ih _ hnd' hmemrest]
      unfold oldAttrs oldRels
      rw [lookup2_applyEntityUpdate_ne _ _ _ _ _ _ (Or.inr hne)]

theorem lookup2_applyTypeFragment_other (st : EntityStore) (t : String)
    (ents : Obj EntityFragment) (t' i' : String) (h : t' ≠ t) :
    lookup2 (applyTypeFragment st t ents) t' i' = lookup2 st t' i' := by
  unfold applyTypeFragment
  rw [lookup2_applyEnts_other _ _ _ _ _ h, lookup2_ensureType]

theorem lookup2_applyFragment_unmentioned (st : EntityStore) (frag : StoreFragment)
    (t i : String) (h : ∀ ents, (t, ents) ∈ frag → i ∉ ents.map Prod.fst) :
    lookup2 (applyFragment st frag) t i = lookup2 st t i := by
  induction frag generalizing st with
  | nil => rfl
  | cons p rest ih =>
    have hrest : ∀ ents, (t, ents) ∈ rest → i ∉ ents.map Prod.fst := by
      intro ents hm; exact h ents (List.mem_cons_of_mem _ hm)
    show lookup2 (applyFragment (applyTypeFragment st p.1 p.2) rest) t i = _
    rw [ih _ hrest]
    by_cases ht : t = p.1
    · subst ht
      have habs : i ∉ p.2.map Prod.fst := h p.2 (List.mem_cons_self p rest)
      unfold applyTypeFragment
      rw [lookup2_applyEnts_absent _ _ _ _ habs, lookup2_ensureType]
    · rw [lookup2_applyTypeFragment_other _ _ _ _ _ ht]

theorem lookup2_applyFragment_absentType (st : EntityStore) (frag : StoreFragment)
    (t i : String) (h : t ∉ frag.map Prod.fst) :
    lookup2 (applyFragment st frag) t i = lookup2 st t i := by
  induction frag generalizing st with
  | nil => rfl
  | cons p rest ih =>
    have hne : t ≠ p.1 := by
      intro hh; exact h (by simp [hh])
    have hrest : t ∉ rest.map Prod.fst := by
      intro hh; exact h (by simp [hh])
    show lookup2 (applyFragment (applyTypeFragment st p.1 p.2) rest) t i = _
    rw [ih _ hrest, lookup2_applyTypeFragment_other _ _ _ _ _ hne]

theorem lookup2_applyFragment_mem (st : EntityStore) (frag : StoreFragment)
    (t : String) (ents : Obj EntityFragment) (i : String) (ef : EntityFragment)
    (hnd : (frag.map Prod.fst).Nodup)
    (hinner : ∀ p ∈ frag, ((p.2 : Obj EntityFragment).map Prod.fst).Nodup)
    (ht : (t, ents) ∈ frag) (hi : (i, ef) ∈ ents) :
    lookup2 (applyFragment st frag) t i =
      some ⟨t, i, mergeObj (oldAttrs st t i) ef.attributes, mergeObj (oldRels st t i) ef.relationships⟩ := by
  induction frag generalizing st with
  | nil => cases ht
  | cons p rest ih =>
    obtain ⟨pt, pents⟩ := p
    have hnd' : (rest.map Prod.fst).Nodup := (List.nodup_cons.mp hnd).2
    have hinner' : ∀ q ∈ rest, ((q.2 : Obj EntityFragment).map Prod.fst).Nodup := by
      intro q hq; exact hinner q (List.mem_cons_of_mem _ hq)
    rcases List.mem_cons.mp ht with heq | hmemrest
    · rw [Prod.mk.injEq] at heq
      obtain ⟨h1, h2⟩ := heq
      subst h1
      subst h2
      have habs : t ∉ rest.map Prod.fst := (List.nodup_cons.mp hnd).1
      show lookup2 (applyFragment (applyTypeFragment st t ents) rest) t i = _
      rw [lookup2_applyFragment_absentType _ _ _ _ habs]
      unfold applyTypeFragment
      rw [lookup2_applyEnts_mem _ _ _ _ _ (hinner (t, ents) (List.mem_cons_self _ _)) hi]
      unfold oldAttrs oldRels
      rw [lookup2_ensureType]
    · have hti : t ∈ rest.map Prod.fst := List.mem_map.mpr ⟨(t, ents), hmemrest, rfl⟩
      have hne : t ≠ pt := by
        intro hh
        exact (List.nodup_cons.mp hnd).1 (hh ▸ hti)
      show lookup2 (applyFragment (applyTypeFragment st pt pents) rest) t i = _
      rw [ih _ hnd' hinner' hmemrest]
      unfold oldAttrs oldRels
      rw [lookup2_applyTypeFragment_other _ _ _ _ _ hne]

theorem lookupKey_setKey {V : Type} (m : Obj V) (k : String) (v : V) (k' : String) :
    lookupKey (setKey m k v) k' = if k' = k then some v else lookupKey m k' := by
  by_cases h : k' = k
  · subst h; simp [lookupKey_setKey_self]
  · simp [h, lookupKey_setKey_ne _ _ _ _ h]

/-- The literal field-path lookup `get(state, 'action.meta.dataKey')`
never produces a record: even when a data key is literally named
`"action"`, its value is a status record, which has no `meta` field. -/
theorem existingRecord_eq_none (s : RequestsStore) : existingRecord s = none := by
  unfold existingRecord
  cases lookupKey s "action" <;> simp [fieldMeta]

/-- When the `refToDelete` guard does not fire, the entity-store success
case is exactly the fragment merge. -/
theorem entitiesReducer_success_no_delete (state : EntityStore) (meta : SuccessMeta)
    (payload : SuccessPayload) (hdel : deleteTriggers meta.refToDelete = false) :
    entitiesReducer state (.jsonApiSuccess meta payload) =
      .ok (applyFragment state payload.storeFragment) := by
  cases hrtd : meta.refToDelete with
  | none => simp [entitiesReducer, hrtd]
  | some rtd =>
    obtain ⟨rt, ri⟩ := rtd
    rw [hrtd, deleteTriggers] at hdel
    cases ri with
    | none => simp [entitiesReducer, hrtd]
    | some i =>
      cases rt with
      | none => simp [entitiesReducer, hrtd]
      | some t =>
        simp only [Option.isSome_some, Bool.true_and, jsTruthyStr] at hdel
        simp [entitiesReducer, hrtd, hdel]

/-! ### Claim theorems -/

/-- Claim C1: for every reference-store state and every successful delete
event carrying a complete `refToDelete` `(type, id)` (both truthy, and not
a next-page event), the reducer succeeds and the resulting reference store
has that `(type,id)` pair absent from the entities list of every data
key's reference — including data keys unrelated to the one that issued the
delete — while every reference whose entities field is not a list is left
unchanged. -/
theorem refs_delete_removes_pair_everywhere
    (state : RefsStore) (meta : SuccessMeta) (payload : SuccessPayload)
    (t i : String)
    (hnp : meta.isNextPage = false)
    (hrtd : meta.refToDelete = some ⟨some t, some i⟩)
    (ht : t ≠ "") (hi : i ≠ "") :
    ∃ state', refsReducer state (.jsonApiSuccess meta payload) = .ok state' ∧
      (∀ k r, lookupKey state' k = some r →
        ∀ es, r.entities = .list es → (⟨t, i⟩ : EntityRef) ∉ es) ∧
      (∀ k r, lookupKey state k = some r → (∀ es, r.entities ≠ .list es) →
        lookupKey state' k = some r) := by
  have ht' : (t != "") = true := bne_iff_ne.mpr ht
  have hi' : (i != "") = true := bne_iff_ne.mpr hi
  have hred : refsReducer state (.jsonApiSuccess meta payload) =
      .ok (state.map (fun p => (p.1, deleteRefFromRef t i p.2))) := by
    simp [refsReducer, hnp, hrtd, deleteRefFromEntities, ht', hi']
  refine ⟨_, hred, ?_, ?_⟩
  · intro k r hk es hes hmem
    rw [lookupKey_map] at hk
    cases hsrc : lookupKey state k with
    | none => rw [hsrc] at hk; cases hk
    | some r0 =>
      rw [hsrc] at hk
      simp only [Option.map_some'] at hk
      cases hk
      obtain ⟨r0e, r0c, r0l, r0m⟩ := r0
      cases r0e with
      | list es0 =>
        simp only [deleteRefFromRef, EntitiesField.list.injEq] at hes
        rw [← hes] at hmem
        have := (List.mem_filter.mp hmem).2
        simp at this
      | other v => simp [deleteRefFromRef] at hes
  · intro k r hk hnl
    rw [lookupKey_map, hk]
    simp only [Option.map_some', Option.some.injEq]
    obtain ⟨re, rc, rl, rm⟩ := r
    cases re with
    | list es0 => exact absurd rfl (hnl es0)
    | other v => rfl

/-- Witness for C1 at a concrete store: deleting `(post,1)` removes it
from the list reference and leaves the non-list reference unchanged. -/
theorem refs_delete_removes_pair_everywhere_witness :
    ∃ state', refsReducer
        [("a", (⟨.list [⟨"post", "1"⟩, ⟨"post", "2"⟩], some true, none, none⟩ : Ref)),
         ("b", (⟨.other "raw", none, none, none⟩ : Ref))]
        (.jsonApiSuccess ⟨"a", false, some ⟨some "post", some "1"⟩⟩ ⟨[], emptyRef⟩) = .ok state' ∧
      (∀ k r, lookupKey state' k = some r →
        ∀ es, r.entities = .list es → (⟨"post", "1"⟩ : EntityRef) ∉ es) ∧
      (∀ k r, lookupKey
          [("a", (⟨.list [⟨"post", "1"⟩, ⟨"post", "2"⟩], some true, none, none⟩ : Ref)),
           ("b", (⟨.other "raw", none, none, none⟩ : Ref))] k = some r →
        (∀ es, r.entities ≠ .list es) → lookupKey state' k = some r) :=
  refs_delete_removes_pair_everywhere _ _ _ "post" "1" rfl rfl
    (by decide) (by decide)

/-- Claim C2: when a reference with an entities list already exists for
the data key, a success event with `isNextPage = true` replaces the
reference by the new one with the old entities prepended: old order, then
new order, nothing dropped, and `links`/`meta`/`isCollection` taken from
the new reference. -/
theorem refs_next_page_appends
    (state : RefsStore) (meta : SuccessMeta) (payload : SuccessPayload)
    (oldRef : Ref) (oldEs newEs : List EntityRef)
    (hnp : meta.isNextPage = true)
    (hold : lookupKey state meta.dataKey = some oldRef)
    (holdes : oldRef.entities = .list oldEs)
    (hnew : payload.newRequestRef.entities = .list newEs) :
    ∃ state', refsReducer state (.jsonApiSuccess meta payload) = .ok state' ∧
      lookupKey state' meta.dataKey = some
        { entities := .list (oldEs ++ newEs),
          isCollection := payload.newRequestRef.isCollection,
          links := payload.newRequestRef.links,
          meta := payload.newRequestRef.meta } := by
  have hred : refsReducer state (.jsonApiSuccess meta payload) =
      .ok (setKey state meta.dataKey
        { payload.newRequestRef with entities := .list (oldEs ++ newEs) }) := by
    simp [refsReducer, hnp, hold, holdes, hnew]
  refine ⟨_, hred, ?_⟩
  rw [lookupKey_setKey_self]

/-- Witness for C2: the spec's own scenario — `"feed"` holds
`[post 1, post 2]`, a next page delivers `[post 3]`, and the result is
`[post 1, post 2, post 3]` with the new links and meta. -/
theorem refs_next_page_appends_witness :
    ∃ state', refsReducer
        [("feed", (⟨.list [⟨"post", "1"⟩, ⟨"post", "2"⟩], some true, none, none⟩ : Ref))]
        (.jsonApiSuccess ⟨"feed", true, none⟩
          ⟨[], ⟨.list [⟨"post", "3"⟩], some true, some "L2", some "M2"⟩⟩) = .ok state' ∧
      lookupKey state' "feed" = some
        { entities := .list ([⟨"post", "1"⟩, ⟨"post", "2"⟩] ++ [⟨"post", "3"⟩]),
          isCollection := some true,
          links := some "L2",
          meta := some "M2" } :=
  refs_next_page_appends _ _ _ _ [⟨"post", "1"⟩, ⟨"post", "2"⟩] [⟨"post", "3"⟩]
    rfl rfl rfl rfl

/-- Claim C8: a success event with `isNextPage = true` for a data key with
no existing reference fails with an explicit error (the JS code throws a
`TypeError` reading `.entities` of `undefined`) and never produces a
resulting state, in particular never a synthesized empty reference. -/
theorem refs_next_page_without_ref_errors
    (state : RefsStore) (meta : SuccessMeta) (payload : SuccessPayload)
    (hnp : meta.isNextPage = true)
    (hnone : lookupKey state meta.dataKey = none) :
    refsReducer state (.jsonApiSuccess meta payload) =
      .error "TypeError: cannot read entities of undefined" ∧
    ∀ state', refsReducer state (.jsonApiSuccess meta payload) ≠ .ok state' := by
  have h : refsReducer state (.jsonApiSuccess meta payload) =
      .error "TypeError: cannot read entities of undefined" := by
    simp [refsReducer, hnp, hnone]
  exact ⟨h, fun state' hc => by rw [h] at hc; cases hc⟩

/-- Witness for C8: paginating the unfetched key `"feed"` on an empty
reference store errors. -/
theorem refs_next_page_without_ref_errors_witness :
    refsReducer [] (.jsonApiSuccess ⟨"feed", true, none⟩ ⟨[], emptyRef⟩) =
      .error "TypeError: cannot read entities of undefined" ∧
    ∀ state', refsReducer [] (.jsonApiSuccess ⟨"feed", true, none⟩ ⟨[], emptyRef⟩) ≠ .ok state' :=
  refs_next_page_without_ref_errors [] ⟨"feed", true, none⟩ ⟨[], emptyRef⟩ rfl rfl

/-- Claim C4: in every request-status state reachable by any sequence of
dispatched events, (a) once a data key has a status record, no subsequent
event removes that key's entry, and (b) every record whose status is
`"success"` has `isError = false`. -/
theorem requests_reachable_invariants (s : RequestsStore) (hreach : ReachableReq s) :
    (∀ now a k, lookupKey s k ≠ none → lookupKey (requestsReducer now s a) k ≠ none) ∧
    (∀ k r, lookupKey s k = some r → r.status = some "success" → r.isError = some false) := by
  constructor
  · intro now a k hk
    cases a with
    | jsonApiRequest dk m =>
      simp only [requestsReducer, lookupKey_setKey]
      split
      · simp
      · exact hk
    | jsonApiSuccess meta payload =>
      simp only [requestsReducer, lookupKey_setKey]
      split
      · simp
      · exact hk
    | jsonApiFailure dk nm msg =>
      simp only [requestsReducer, lookupKey_setKey]
      split
      · simp
      · exact hk
    | jsonApiBootstrap meta payload => exact hk
    | updateEntity t i attrs => exact hk
    | genericBootstrap dk p => exact hk
    | initializeDataKey dk r => exact hk
  · induction hreach with
    | init => intro k r h; cases h
    | step s now a hs ih =>
      intro k r hlk hst
      cases a with
      | jsonApiRequest dk m =>
        simp only [requestsReducer, lookupKey_setKey] at hlk
        split at hlk
        · cases hlk; simp at hst
        · exact ih k r hlk hst
      | jsonApiSuccess meta payload =>
        simp only [requestsReducer, lookupKey_setKey] at hlk
        split at hlk
        · cases hlk; rfl
        · exact ih k r hlk hst
      | jsonApiFailure dk nm msg =>
        simp only [requestsReducer, lookupKey_setKey] at hlk
        split at hlk
        · cases hlk; simp at hst
        · exact ih k r hlk hst
      | jsonApiBootstrap meta payload => exact ih k r hlk hst
      | updateEntity t i attrs => exact ih k r hlk hst
      | genericBootstrap dk p => exact ih k r hlk hst
      | initializeDataKey dk r0 => exact ih k r hlk hst

/-- Witness for C4 at the concrete state reached by a request for `"k"`
followed by its success. -/
theorem requests_reachable_invariants_witness :
    (∀ now a k,
      lookupKey (requestsReducer 7 (requestsReducer 5 [] (.jsonApiRequest "k" "GET"))
        (.jsonApiSuccess plainMeta ⟨[], emptyRef⟩)) k ≠ none →
      lookupKey (requestsReducer now (requestsReducer 7 (requestsReducer 5 []
        (.jsonApiRequest "k" "GET")) (.jsonApiSuccess plainMeta ⟨[], emptyRef⟩)) a) k ≠ none) ∧
    (∀ k r,
      lookupKey (requestsReducer 7 (requestsReducer 5 [] (.jsonApiRequest "k" "GET"))
        (.jsonApiSuccess plainMeta ⟨[], emptyRef⟩)) k = some r →
      r.status = some "success" → r.isError = some false) :=
  requests_reachable_invariants _
    (ReachableReq.step _ 7 _ (ReachableReq.step _ 5 _ ReachableReq.init))

/-- Claim C5: the `existing` value the request reducer reads is `undefined`
for every state lacking a literal top-level `"action"` field, so each of
the three transitions produces a record holding exactly the fields it sets
itself — in particular, the `pending` method recorded at request time is
absent from the record a success produces. -/
theorem requests_transitions_drop_prior_fields
    (s : RequestsStore) (now : Nat) (dk m nm msg : String)
    (meta : SuccessMeta) (payload : SuccessPayload)
    (_hact : lookupKey s "action" = none)
    (hdk : meta.dataKey = dk) :
    existingRecord s = none ∧
    lookupKey (requestsReducer now s (.jsonApiRequest dk m)) dk =
      some ⟨some "pending", some true, none, none, some m, none, none, none⟩ ∧
    lookupKey (requestsReducer now s (.jsonApiSuccess meta payload)) dk =
      some ⟨some "success", some false, some true, some false, none, some now, none, none⟩ ∧
    lookupKey (requestsReducer now s (.jsonApiFailure dk nm msg)) dk =
      some ⟨some "error", some false, some false, some true, none, some now, some nm, some [msg]⟩ := by
  refine ⟨existingRecord_eq_none s, ?_, ?_, ?_⟩ <;>
    simp [requestsReducer, existingOf, existingRecord_eq_none, hdk, lookupKey_setKey_self,
      RequestRecord.empty]

/-- Witness for C5 at the empty store (which trivially lacks an `"action"`
field). -/
theorem requests_transitions_drop_prior_fields_witness :
    existingRecord [] = none ∧
    lookupKey (requestsReducer 3 [] (.jsonApiRequest "k" "GET")) "k" =
      some ⟨some "pending", some true, none, none, some "GET", none, none, none⟩ ∧
    lookupKey (requestsReducer 3 [] (.jsonApiSuccess plainMeta ⟨[], emptyRef⟩)) "k" =
      some ⟨some "success", some false, some true, some false, none, some 3, none, none⟩ ∧
    lookupKey (requestsReducer 3 [] (.jsonApiFailure "k" "E" "boom")) "k" =
      some ⟨some "error", some false, some false, some true, none, some 3, some "E", some ["boom"]⟩ :=
  requests_transitions_drop_prior_fields [] 3 "k" "GET" "E" "boom" plainMeta ⟨[], emptyRef⟩ rfl rfl

/-- Counterexample to claim C6: on an input that has both a `data` field
(array linkage to `(post,1)`) and the flat-resource fields
(`type: "user", id: "9", attributes: {}`), the result derives from the
flat resource, not from `data` — the flat-resource `if` (requests.js line
83) is not an `else if` and overwrites step 2's result. -/
theorem makeRef_data_precedence_cex :
    (makeRef dataAndFlatInput ⟨none⟩).entities = some [⟨"user", "9"⟩] ∧
    (makeRef dataAndFlatInput ⟨none⟩).isCollection = some false ∧
    (makeRef dataAndFlatInput ⟨none⟩).entities ≠ some [⟨"post", "1"⟩] := by
  decide

/-- Claim C6 (amended): for an input with no backing reference and a
`data` field, the `data` field governs `entities`/`isCollection` only when
the flat-resource condition (`type`, `id`, `attributes` all truthy) does
not hold; when the input also satisfies the flat-resource condition, the
flat-resource rule (step 3) takes precedence over the `data` rule. -/
theorem makeRef_data_vs_flat
    (input : RefInput) (options : MakeRefOptions) (d : DataField)
    (hback : input.backingRef = none) (hdata : input.plain.data = some d) :
    ((jsTruthyStr input.plain.type && jsTruthyStr input.plain.id
        && input.plain.attributes.isSome) = false →
      (makeRef input options).entities = some (dataEntities d) ∧
      (options.isCollection ≠ some true →
        (makeRef input options).isCollection = some (dataIsCollection d))) ∧
    ((jsTruthyStr input.plain.type && jsTruthyStr input.plain.id
        && input.plain.attributes.isSome) = true →
      (makeRef input options).entities =
        some [⟨input.plain.type.getD "", input.plain.id.getD ""⟩] ∧
      (options.isCollection ≠ some true →
        (makeRef input options).isCollection = some false)) := by
  constructor
  · intro hflat
    constructor
    · cases d <;> simp [makeRef, hback, hdata, hflat, dataEntities]
    · intro hopt
      cases d <;> simp [makeRef, hback, hdata, hflat, hopt, dataIsCollection]
  · intro hflat
    constructor
    · simp [makeRef, hback, hdata, hflat]
    · intro hopt
      simp [makeRef, hback, hdata, hflat, hopt]

/-- Witness for C6 (amended): the `data` rule fires when the flat
condition fails, and the flat rule wins when both apply. -/
theorem makeRef_data_vs_flat_witness :
    (makeRef arrayDataInput ⟨none⟩).entities = some [⟨"post", "1"⟩] ∧
    (makeRef dataAndFlatInput ⟨none⟩).entities = some [⟨"user", "9"⟩] :=
  ⟨((makeRef_data_vs_flat arrayDataInput ⟨none⟩ (.arr [⟨"post", "1"⟩]) rfl rfl).1 (by decide)).1,
   ((makeRef_data_vs_flat dataAndFlatInput ⟨none⟩ (.arr [⟨"post", "1"⟩]) rfl rfl).2 (by decide)).1⟩

/-- Counterexample to claim C7: with an explicit `isCollection: false`
option on an input whose `data` array makes step 2 infer `true`, the
result is still `true` — `if (options.isCollection)` (requests.js line 88)
ignores a falsy override instead of applying it. -/
theorem makeRef_isCollection_override_cex :
    (makeRef arrayDataInput ⟨some false⟩).isCollection = some true ∧
    (makeRef arrayDataInput ⟨some false⟩).isCollection ≠ some false := by
  decide

/-- Claim C7 (amended): the `isCollection` option overrides the inference
only when it is `true`; a `false` (or absent) option leaves the inferred
value unchanged, and the option never affects `entities`, `links` or
`meta`. -/
theorem makeRef_isCollection_override_only_truthy
    (input : RefInput) (options : MakeRefOptions) :
    (options.isCollection = some true → (makeRef input options).isCollection = some true) ∧
    (options.isCollection ≠ some true →
      (makeRef input options).isCollection = (makeRef input ⟨none⟩).isCollection) ∧
    (makeRef input options).entities = (makeRef input ⟨none⟩).entities ∧
    (makeRef input options).links = (makeRef input ⟨none⟩).links ∧
    (makeRef input options).meta = (makeRef input ⟨none⟩).meta := by
  refine ⟨?_, ?_, rfl, rfl, rfl⟩
  · intro h; simp [makeRef, h]
  · intro h; simp [makeRef, h]

/-- Witness for C7 (amended): a `true` override forces `true`, and a
`false` override coincides with no override. -/
theorem makeRef_isCollection_override_only_truthy_witness :
    (makeRef arrayDataInput ⟨some true⟩).isCollection = some true ∧
    (makeRef arrayDataInput ⟨some false⟩).isCollection =
      (makeRef arrayDataInput ⟨none⟩).isCollection :=
  ⟨(makeRef_isCollection_override_only_truthy arrayDataInput ⟨some true⟩).1 rfl,
   (makeRef_isCollection_override_only_truthy arrayDataInput ⟨some false⟩).2.1 (by decide)⟩

/-- Counterexample to claim C9: a success event with `refToDelete` missing
entirely is routed to the reference store's default wholesale-replace
branch, which overwrites the data key's reference — the state is not left
unchanged. -/
theorem stores_delete_noop_cex :
    refsReducer feedState (.jsonApiSuccess plainMeta ⟨[], emptyRef⟩) = .ok [("k", emptyRef)] ∧
    ([("k", emptyRef)] : RefsStore) ≠ feedState :=
  ⟨rfl, by decide⟩

/-- Claim C9 (amended): a success event whose `refToDelete` is present but
lacks its `type` or its `id` field leaves the entity store and the
reference store unchanged in value and raises no error; the request-status
store still records the success for the data key (an event with
`refToDelete` missing entirely instead takes the reference store's default
replace path). -/
theorem stores_noop_on_incomplete_refToDelete
    (entState : EntityStore) (refState : RefsStore) (reqState : RequestsStore)
    (meta : SuccessMeta) (payload : SuccessPayload) (rtd : RefToDelete) (now : Nat)
    (hnp : meta.isNextPage = false)
    (hrtd : meta.refToDelete = some rtd)
    (hinc : rtd.type = none ∨ rtd.id = none)
    (hfrag : payload.storeFragment = []) :
    entitiesReducer entState (.jsonApiSuccess meta payload) = .ok entState ∧
    refsReducer refState (.jsonApiSuccess meta payload) = .ok refState ∧
    lookupKey (requestsReducer now reqState (.jsonApiSuccess meta payload)) meta.dataKey =
      some ⟨some "success", some false, some true, some false, none, some now, none, none⟩ := by
  obtain ⟨rt, ri⟩ := rtd
  refine ⟨?_, ?_, ?_⟩
  · rcases hinc with h | h
    · subst h
      cases ri <;> simp [entitiesReducer, hrtd, hfrag, applyFragment]
    · subst h
      cases rt <;> simp [entitiesReducer, hrtd, hfrag, applyFragment]
  · rcases hinc with h | h
    · subst h
      cases ri <;> simp [refsReducer, hnp, hrtd, deleteRefFromEntities]
    · subst h
      cases rt <;> simp [refsReducer, hnp, hrtd, deleteRefFromEntities]
  · simp [requestsReducer, existingOf, existingRecord_eq_none, lookupKey_setKey_self,
      RequestRecord.empty]

/-- Witness for C9 (amended): a `refToDelete` lacking its `type` field is
a value-level no-op on the entity and reference stores while the request
store records the success. -/
theorem stores_noop_on_incomplete_refToDelete_witness :
    entitiesReducer articleStore
      (.jsonApiSuccess ⟨"k", false, some ⟨none, some "1"⟩⟩ ⟨[], emptyRef⟩) = .ok articleStore ∧
    refsReducer feedState
      (.jsonApiSuccess ⟨"k", false, some ⟨none, some "1"⟩⟩ ⟨[], emptyRef⟩) = .ok feedState ∧
    lookupKey (requestsReducer 3 []
      (.jsonApiSuccess ⟨"k", false, some ⟨none, some "1"⟩⟩ ⟨[], emptyRef⟩)) "k" =
      some ⟨some "success", some false, some true, some false, none, some 3, none, none⟩ :=
  stores_noop_on_incomplete_refToDelete articleStore feedState []
    ⟨"k", false, some ⟨none, some "1"⟩⟩ ⟨[], emptyRef⟩ ⟨none, some "1"⟩ 3
    rfl rfl (Or.inl rfl) rfl

/-- Claim C10: a manual attribute update (`UPDATE_ENTITY`) on a missing
`(type,id)` surfaces an explicit error (the JS code throws a `TypeError`),
not a silent no-op; on an existing record it merges the partial attributes
over that record's attributes only, leaving its relationships, its
identity, and every other entity unchanged. -/
theorem update_entity_error_or_attr_merge
    (state : EntityStore) (t i : String) (attrs : Obj JVal) :
    (lookup2 state t i = none →
      ∃ msg, entitiesReducer state (.updateEntity t i attrs) = .error msg) ∧
    (∀ e, lookup2 state t i = some e →
      ∃ state', entitiesReducer state (.updateEntity t i attrs) = .ok state' ∧
        lookup2 state' t i = some { e with attributes := mergeObj e.attributes attrs } ∧
        (∀ f, lookupKey (mergeObj e.attributes attrs) f =
          firstSome (lookupKey attrs.reverse f) (lookupKey e.attributes f)) ∧
        (∀ t' i', t' ≠ t ∨ i' ≠ i → lookup2 state' t' i' = lookup2 state t' i')) := by
  constructor
  · intro hnone
    unfold lookup2 at hnone
    cases hm : lookupKey state t with
    | none =>
      exact ⟨"TypeError: cannot read properties of undefined", by simp [entitiesReducer, hm]⟩
    | some tmap =>
      rw [hm] at hnone
      simp only at hnone
      exact ⟨"TypeError: cannot read attributes of undefined",
        by simp [entitiesReducer, hm, hnone]⟩
  · intro e he
    unfold lookup2 at he
    cases hm : lookupKey state t with
    | none => rw [hm] at he; cases he
    | some tmap =>
      rw [hm] at he
      simp only at he
      have hred : entitiesReducer state (.updateEntity t i attrs) =
          .ok (setKey state t
            (setKey tmap i { e with attributes := mergeObj e.attributes attrs })) := by
        simp [entitiesReducer, hm, he]
      refine ⟨_, hred, ?_, ?_, ?_⟩
      · simp [lookup2, lookupKey_setKey_self]
      · intro f; exact lookupKey_mergeObj _ _ _
      · intro t' i' hne
        by_cases ht : t' = t
        · subst ht
          have hi : i' ≠ i := hne.resolve_left (fun hh => hh rfl)
          simp [lookup2, lookupKey_setKey_self, lookupKey_setKey_ne _ _ _ _ hi, hm]
        · simp [lookup2, lookupKey_setKey_ne _ _ _ _ ht]

/-- Witness for C10: updating a missing entity errors; updating
`(article,1)` in the one-record store merges `{views: 10}` over
`{title: "A"}` and leaves everything else alone. -/
theorem update_entity_error_or_attr_merge_witness :
    (∃ msg, entitiesReducer [] (.updateEntity "article" "1" [("views", .num 10)]) = .error msg) ∧
    (∃ state', entitiesReducer articleStore (.updateEntity "article" "1" [("views", .num 10)]) =
        .ok state' ∧
      lookup2 state' "article" "1" =
        some ⟨"article", "1", mergeObj [("title", .str "A")] [("views", .num 10)], []⟩ ∧
      (∀ f, lookupKey (mergeObj [("title", JVal.str "A")] [("views", JVal.num 10)]) f =
        firstSome (lookupKey ([("views", JVal.num 10)] : Obj JVal).reverse f)
          (lookupKey [("title", JVal.str "A")] f)) ∧
      (∀ t' i', t' ≠ "article" ∨ i' ≠ "1" →
        lookup2 state' t' i' = lookup2 articleStore t' i')) :=
  ⟨(update_entity_error_or_attr_merge [] "article" "1" [("views", .num 10)]).1 rfl,
   (update_entity_error_or_attr_merge articleStore "article" "1" [("views", .num 10)]).2
     ⟨"article", "1", [("title", .str "A")], []⟩ rfl⟩

/-- Counterexample to claim C3: a success event carrying both a store
fragment mentioning `(article,1)` and a complete `refToDelete` for
`(article,1)` does not leave the merged record in place — the reducer
deletes it after the merge, so `(article,1)` ends up absent. -/
theorem entities_fragment_with_delete_cex :
    entitiesReducer [] (.jsonApiSuccess delArticleMeta ⟨fragTitle, emptyRef⟩) =
      .ok [("article", [])] ∧
    lookup2 [("article", [])] "article" "1" = none :=
  ⟨rfl, rfl⟩

/-- Claim C3 (amended): for every fetch-success or bootstrap event whose
store fragment has unique type keys and unique id keys per type and whose
`refToDelete` does not trigger the entity-store delete, every `(type,id)`
mentioned in the fragment ends up with attributes and relationships merged
field-by-field over any existing record — last write wins per field, keys
absent from the update are kept, the record is created if absent — and
every `(type,id)` not mentioned in the fragment is unchanged. -/
theorem entities_apply_fragment_merges
    (state : EntityStore) (meta : SuccessMeta) (payload : SuccessPayload)
    (hdel : deleteTriggers meta.refToDelete = false)
    (hnd : (payload.storeFragment.map Prod.fst).Nodup)
    (hinner : ∀ p ∈ payload.storeFragment, ((p.2 : Obj EntityFragment).map Prod.fst).Nodup) :
    ∃ state', entitiesReducer state (.jsonApiSuccess meta payload) = .ok state' ∧
      entitiesReducer state (.jsonApiBootstrap meta payload) = .ok state' ∧
      (∀ t ents i ef, (t, ents) ∈ payload.storeFragment → (i, ef) ∈ ents →
        ∃ e, lookup2 state' t i = some e ∧ e.type = t ∧ e.id = i ∧
          (∀ f, lookupKey e.attributes f =
            firstSome (lookupKey ef.attributes.reverse f) (lookupKey (oldAttrs state t i) f)) ∧
          (∀ f, lookupKey e.relationships f =
            firstSome (lookupKey ef.relationships.reverse f) (lookupKey (oldRels state t i) f))) ∧
      (∀ t i, (∀ ents, (t, ents) ∈ payload.storeFragment → i ∉ ents.map Prod.fst) →
        lookup2 state' t i = lookup2 state t i) := by
  refine ⟨applyFragment state payload.storeFragment,
    entitiesReducer_success_no_delete state meta payload hdel,
    entitiesReducer_success_no_delete state meta payload hdel, ?_, ?_⟩
  · intro t ents i ef ht hi
    refine ⟨_, lookup2_applyFragment_mem state _ t ents i ef hnd hinner ht hi,
      rfl, rfl, ?_, ?_⟩
    · intro f; exact lookupKey_mergeObj _ _ _
    · intro f; exact lookupKey_mergeObj _ _ _
  · intro t i h
    exact lookup2_applyFragment_unmentioned state _ t i h

/-- Witness for C3 (amended), on the spec's own scenario: applying the
`{views: 10}` fragment to the store already holding `(article,1)` with
`{title: "A"}` yields `attributes = {title: "A", views: 10}`. -/
theorem entities_apply_fragment_merges_witness :
    (∃ state', entitiesReducer articleStore
        (.jsonApiSuccess plainMeta ⟨fragViews, emptyRef⟩) = .ok state' ∧
      entitiesReducer articleStore
        (.jsonApiBootstrap plainMeta ⟨fragViews, emptyRef⟩) = .ok state' ∧
      (∀ t ents i ef, (t, ents) ∈ fragViews → (i, ef) ∈ ents →
        ∃ e, lookup2 state' t i = some e ∧ e.type = t ∧ e.id = i ∧
          (∀ f, lookupKey e.attributes f =
            firstSome (lookupKey ef.attributes.reverse f)
              (lookupKey (oldAttrs articleStore t i) f)) ∧
          (∀ f, lookupKey e.relationships f =
            firstSome (lookupKey ef.relationships.reverse f)
              (lookupKey (oldRels articleStore t i) f))) ∧
      (∀ t i, (∀ ents, (t, ents) ∈ fragViews → i ∉ ents.map Prod.fst) →
        lookup2 state' t i = lookup2 articleStore t i)) ∧
    entitiesReducer articleStore (.jsonApiSuccess plainMeta ⟨fragViews, emptyRef⟩) =
      .ok [("article",
        [("1", ⟨"article", "1", [("title", .str "A"), ("views", .num 10)], []⟩)])] :=
  ⟨entities_apply_fragment_merges articleStore plainMeta ⟨fragViews, emptyRef⟩
    rfl (by decide) (by decide), rfl⟩

end Nion
